import Mathlib

/-!
Verification of the bible_search repository (Neo4j + FAISS bible verse
search) against its natural-language specification.

Shallow embedding conventions:
* Embedding vectors are lists of exact integers standing for the float32
  values the code manipulates; the claims settled here concern ordering,
  lengths and control flow, which the exact model captures.
* The Neo4j database engine and the faiss library are external
  collaborators.  Each repository function that delegates to them is
  embedded over an explicit abstraction of the external state (a list of
  rows / an option-valued file-system cell), faithful to the Cypher text
  respectively to the spec's description of the faiss index contract.
* Python functions that swallow exceptions and return a sentinel are
  embedded with explicit boolean failure flags standing for "the external
  call raised".
-/

namespace BibleSearch

/-- An embedding vector: the float32 array produced by the sentence
transformer, modelled with exact integer coordinates (the claims settled
here concern ordering, lengths and control flow, which depend only on the
linear order of the coordinate domain). -/
abbrev Vec : Type := List ℤ

/-- DEFAULT_SEARCH_RESULTS from config.py. -/
def DEFAULT_SEARCH_RESULTS : Nat := 5

/-- Squared Euclidean (L2) distance between two vectors, the metric of
faiss.IndexFlatL2 used by build_and_save_index. -/
def sqDist (u v : Vec) : ℤ :=
  (List.zipWith (fun a b => (a - b) * (a - b)) u v).sum

/-- Ordering on (node id, distance) search hits: ascending distance,
ties broken by ascending identity. -/
def hitLE (a b : Int × ℤ) : Prop :=
  a.2 < b.2 ∨ (a.2 = b.2 ∧ a.1 ≤ b.1)

instance : DecidableRel hitLE := by
  intro a b
  unfold hitLE
  infer_instance

instance : IsTotal (Int × ℤ) hitLE := by
  constructor
  intro a b
  rcases lt_trichotomy a.2 b.2 with h | h | h
  · exact Or.inl (Or.inl h)
  · rcases le_total a.1 b.1 with h1 | h1
    · exact Or.inl (Or.inr ⟨h, h1⟩)
    · exact Or.inr (Or.inr ⟨h.symm, h1⟩)
  · exact Or.inr (Or.inl h)

instance : IsTrans (Int × ℤ) hitLE := by
  constructor
  intro a b c hab hbc
  rcases hab with h1 | ⟨h1, h1i⟩ <;> rcases hbc with h2 | ⟨h2, h2i⟩
  · exact Or.inl (h1.trans h2)
  · exact Or.inl (h2 ▸ h1)
  · exact Or.inl (h1 ▸ h2)
  · exact Or.inr ⟨h1.trans h2, h1i.trans h2i⟩

/-- The (id, distance) scoring of every indexed entry against a query
vector: what an exhaustive flat-L2 scan computes. -/
def scoredEntries (qv : Vec) (entries : List (Int × Vec)) : List (Int × ℤ) :=
  entries.map (fun e => (e.1, sqDist qv e.2))

/-- Modelled from the spec: the full distance ranking an exhaustive flat
index computes — every stored entry scored against the query and ordered
ascending by distance, ties broken by identity ascending (the spec's
VectorIndex determinism rule). -/
def rankedEntries (qv : Vec) (entries : List (Int × Vec)) :
    List (Int × ℤ) :=
  List.insertionSort hitLE (scoredEntries qv entries)

/-- Modelled from the spec: the k-nearest-neighbor search of the loaded
faiss IndexIDMap over IndexFlatL2 (the search itself is implemented inside
the external faiss library, not in this repository's sources).  It returns
the k best-ranked entries; faiss pads the fixed-size result arrays with
id -1 when k exceeds the number of stored vectors. -/
def faissSearch (entries : List (Int × Vec)) (qv : Vec) (k : Nat) :
    List (Int × ℤ) :=
  (rankedEntries qv entries).take k
    ++ List.replicate (k - (rankedEntries qv entries).length) (-1, 0)

/-- search_similar_verses from search.py: returns [] when the query string
is empty (Python falsy) or the index or model is not loaded; otherwise
encodes the query, searches the faiss index for k nearest neighbors and
keeps the (node_id, distance) pairs whose id is not the -1 padding
sentinel.  The sentence-transformer model is an external collaborator,
embedded as a function from query text to vector. -/
def search_similar_verses (query : String) (index : Option (List (Int × Vec)))
    (model : Option (String → Vec)) (k : Nat) : List (Int × ℤ) :=
  if query = "" then []
  else
    match index, model with
    | some entries, some m =>
        (faissSearch entries (m query) k).filter (fun p => decide (p.1 ≠ -1))
    | _, _ => []

/-- A fully-joined verse record as returned by the Cypher query of
get_verse_by_id: book name, chapter number, verse number, text. -/
structure VerseRec where
  book : String
  chapter : Int
  verse : Int
  text : String
deriving DecidableEq, Repr

/-- The node table the Cypher MATCH of get_verse_by_id reads: the live
Verse nodes of the Neo4j store, keyed by their internal node id, each
joined through its Chapter and Book. -/
abbrev NodeStore : Type := List (Int × VerseRec)

/-- get_verse_by_id from graph.py: runs a Cypher MATCH on the internal
node id and returns the first joined record, or None when the id does not
resolve (the query also returns None when run_query swallowed a database
error and yielded no rows). -/
def get_verse_by_id (store : NodeStore) (node_id : Int) : Option VerseRec :=
  (store.find? (fun e => decide (e.1 = node_id))).map (fun e => e.2)

/-- get_verse_details_from_neo4j from search.py: for each faiss hit,
resolve the node id in Neo4j; hits that do not resolve are skipped with a
warning, resolved hits become a record carrying book, chapter, verse, text
and the original search distance, in the order of the input list. -/
def get_verse_details_from_neo4j (store : NodeStore)
    (faiss_results : List (Int × ℤ)) : List (VerseRec × ℤ) :=
  faiss_results.filterMap
    (fun r => (get_verse_by_id store r.1).map (fun v => (v, r.2)))

/-- The composite key (book name, chapter number, verse number) that the
MERGE query of insert_bible_data matches Verse nodes on. -/
abbrev VKey : Type := String × Int × Int

/-- The graph data the ingestion query touches: Book nodes (by name),
Chapter nodes (by book name and number), and Verse nodes (by composite
key, carrying their text). -/
structure GraphDB where
  books : List String
  chapters : List (String × Int)
  verses : List (VKey × String)
deriving DecidableEq, Repr

/-- The empty Neo4j store. -/
def emptyDB : GraphDB := ⟨[], [], []⟩

/-- MERGE of a single node keyed by k: match it if present, create it
otherwise (Cypher MERGE semantics on a unique key pattern). -/
def mergeNode {α : Type} [DecidableEq α] (nodes : List α) (k : α) : List α :=
  if nodes.contains k then nodes else nodes ++ [k]

/-- Upsert on the Verse nodes: MERGE (v:Verse {number, chapterNumber,
bookName}) ON CREATE SET v.text ON MATCH SET v.text — if a node with the
composite key exists its text is overwritten, otherwise a new node is
created with that text. -/
def upsertVerse (verses : List (VKey × String)) (k : VKey) (t : String) :
    List (VKey × String) :=
  if verses.any (fun e => decide (e.1 = k)) then
    verses.map (fun e => if e.1 = k then (e.1, t) else e)
  else verses ++ [(k, t)]

/-- The per-record Cypher query of insert_bible_data: MERGE the Book,
Chapter and Verse nodes (and their relationships, carried here by the
chapter's bookName and the verse's composite key). -/
def mergeVerse (db : GraphDB) (b : String) (c v : Int) (t : String) :
    GraphDB :=
  { books := mergeNode db.books b
    chapters := mergeNode db.chapters (b, c)
    verses := upsertVerse db.verses (b, c, v) t }

/-- A raw ingestion record as read from the JSON file: each field is
fetched with dict.get and may be absent. -/
structure RawRecord where
  book : Option String
  chapter : Option Int
  verse : Option Int
  text : Option String
deriving DecidableEq, Repr

/-- Python truthiness of an optional string: None and "" are falsy. -/
def truthyStr : Option String → Bool
  | none => false
  | some s => decide (s ≠ "")

/-- Python truthiness of an optional integer: None and 0 are falsy. -/
def truthyInt : Option Int → Bool
  | none => false
  | some n => decide (n ≠ 0)

/-- The validity test of insert_bible_data:
`all([book_name, chapter_num, verse_num, text])`, i.e. every field is
present and Python-truthy. -/
def validRecord (r : RawRecord) : Bool :=
  truthyStr r.book && truthyInt r.chapter && truthyInt r.verse
    && truthyStr r.text

/-- The ingestion loop of insert_bible_data: records failing the
truthiness check are logged and skipped, the others are MERGEd into the
store; the loop carries the inserted and skipped counters. -/
def insertLoop : List RawRecord → GraphDB → Nat → Nat → GraphDB × Nat × Nat
  | [], db, ins, skip => (db, ins, skip)
  | r :: rs, db, ins, skip =>
    if validRecord r then
      insertLoop rs
        (mergeVerse db (r.book.getD "") (r.chapter.getD 0) (r.verse.getD 0)
          (r.text.getD ""))
        (ins + 1) skip
    else insertLoop rs db ins (skip + 1)

/-- insert_bible_data from insert.py, applied to an already-decoded list
of records: returns the final store together with the inserted and
skipped counts it logs. -/
def insert_bible_data (records : List RawRecord) (db : GraphDB) :
    GraphDB × Nat × Nat :=
  insertLoop records db 0 0

/-- clear_all_data from graph.py: prompts interactively for confirmation
inside the core function; only the answer "yes" (lowercased character by
character, confirmation.lower() == 'yes') runs MATCH (n) DETACH DELETE n,
which removes every node and relationship; any other answer cancels and
leaves the store untouched, returning False. -/
def clear_all_data (confirmation : String) (db : GraphDB) : Bool × GraphDB :=
  if confirmation.data.map Char.toLower = ("yes" : String).data then
    (true, emptyDB)
  else (false, db)

/-- clear_database_command from main.py, the CLI boundary: unless --force
is given it asks its own click.confirm question; only when that gate
passes does it call the core clear_all_data, which prompts again. -/
def clear_database_command (force : Bool) (cliConfirm : Bool)
    (coreAnswer : String) (db : GraphDB) : Bool × GraphDB :=
  if force || cliConfirm then clear_all_data coreAnswer db else (false, db)

/-- run_query from graph.py, at the list-of-rows abstraction: a database
error is caught, logged, and turned into the empty row list; otherwise
the rows of the Cypher result are returned. -/
def run_query {α : Type} (dbFail : Bool) (rows : List α) : List α :=
  if dbFail then [] else rows

/-- get_all_verses_for_indexing from graph.py: MATCH (v:Verse) RETURN
id(v) AS node_id, v.text AS text, through run_query; a database failure
therefore surfaces as the empty list. -/
def get_all_verses_for_indexing (dbFail : Bool)
    (verseRows : List (Int × String)) : List (Int × String) :=
  run_query dbFail verseRows

/-- The persisted faiss index artifact: the identity-mapped set of
(node id, embedding vector) pairs written by faiss.write_index. -/
abbrev IndexArtifact : Type := List (Int × Vec)

/-- build_and_save_index from faiss_index.py over the fetched verse rows:
an empty corpus returns False before any file operation; the embedding,
index-construction and save steps each catch exceptions (modelled by the
boolean failure flags) and return False; only a fully successful build
leaves the new artifact in the index file.  The save step is
faiss.write_index called in place on the live FAISS_INDEX_PATH — no
temporary file, no rename — so when it fails the repository's code does
not control what is left on disk: `failedWrite` is the file state the
aborted external write leaves behind (it may still be the old artifact if
the write failed before opening, or a truncated/partial file). -/
def build_and_save_index (verses : List (Int × String)) (m : String → Vec)
    (embedFail buildFail saveFail : Bool)
    (failedWrite : Option IndexArtifact) (fs : Option IndexArtifact) :
    Bool × Option IndexArtifact :=
  if verses = [] then (false, fs)
  else if embedFail then (false, fs)
  else if buildFail then (false, fs)
  else if saveFail then (false, failedWrite)
  else (true, some (verses.map (fun e => (e.1, m e.2))))

/-! Helper lemmas. -/

/-- Every hit in the full ranking carries the id of some indexed entry. -/
theorem rankedEntries_id_ne (entries : List (Int × Vec)) (qv : Vec)
    (hid : ∀ p ∈ entries, p.1 ≠ (-1 : Int)) :
    ∀ p ∈ rankedEntries qv entries, p.1 ≠ (-1 : Int) := by
  intro p hp
  rw [rankedEntries, List.mem_insertionSort, scoredEntries, List.mem_map]
    at hp
  obtain ⟨e, he, rfl⟩ := hp
  exact hid e he

/-- Dropping the -1 padding from a faiss result recovers exactly the k
best-ranked hits, provided no genuine entry uses the sentinel id. -/
theorem filter_faissSearch (entries : List (Int × Vec)) (qv : Vec) (k : Nat)
    (hid : ∀ p ∈ entries, p.1 ≠ (-1 : Int)) :
    (faissSearch entries qv k).filter (fun p => decide (p.1 ≠ -1))
      = (rankedEntries qv entries).take k := by
  have hall : ∀ p ∈ (rankedEntries qv entries).take k,
      (fun p : Int × ℤ => decide (p.1 ≠ -1)) p = true := by
    intro p hp
    simpa using rankedEntries_id_ne entries qv hid p (List.take_subset k _ hp)
  rw [faissSearch, List.filter_append, List.filter_eq_self.mpr hall,
    List.filter_replicate]
  simp

/-- The full ranking has one hit per indexed entry. -/
theorem rankedEntries_length (entries : List (Int × Vec)) (qv : Vec) :
    (rankedEntries qv entries).length = entries.length := by
  rw [rankedEntries, List.length_insertionSort, scoredEntries,
    List.length_map]

/-- On a nonempty query and a loaded index and model, search_similar_verses
returns exactly the k best-ranked hits. -/
theorem search_similar_verses_eq_take (entries : List (Int × Vec))
    (m : String → Vec) (q : String) (k : Nat) (hq : q ≠ "")
    (hid : ∀ p ∈ entries, p.1 ≠ (-1 : Int)) :
    search_similar_verses q (some entries) (some m) k
      = (rankedEntries (m q) entries).take k := by
  rw [search_similar_verses, if_neg hq]
  exact filter_faissSearch entries (m q) k hid

/-! Claim theorems. -/

/-- C1: for every loaded index, query vector, and positive integer k,
search returns a sequence of (identity, distance) pairs of length at most
k — exactly min k n pairs for a corpus of n entries — ordered ascending by
distance with ties broken by identity ascending; when k is at least the
number of indexed entries, all entries are returned (the result is a
permutation of the full scored corpus), still sorted. -/
theorem C1_search_ranking_law (entries : List (Int × Vec))
    (m : String → Vec) (q : String) (k : Nat) (hq : q ≠ "") (_hk : 0 < k)
    (hid : ∀ p ∈ entries, p.1 ≠ (-1 : Int)) :
    (search_similar_verses q (some entries) (some m) k).Sorted hitLE ∧
    (search_similar_verses q (some entries) (some m) k).length
      = min k entries.length ∧
    (entries.length ≤ k →
      (search_similar_verses q (some entries) (some m) k).Perm
        (scoredEntries (m q) entries)) := by
  rw [search_similar_verses_eq_take entries m q k hq hid]
  refine ⟨?_, ?_, ?_⟩
  · exact (List.sorted_insertionSort hitLE _).sublist
      (List.take_sublist k _)
  · rw [List.length_take, rankedEntries_length]
  · intro hk2
    rw [List.take_of_length_le (by rw [rankedEntries_length]; exact hk2)]
    exact List.perm_insertionSort hitLE _

/-- Witness for C1 at a concrete two-entry index with a distance tie. -/
theorem C1_search_ranking_law_witness :
    (("love" : String) ≠ "" ∧ 0 < 3 ∧
      ∀ p ∈ [((5 : Int), [(0 : ℤ)]), ((3 : Int), [(2 : ℤ)])],
        p.1 ≠ (-1 : Int)) ∧
    ((search_similar_verses "love"
        (some [((5 : Int), [(0 : ℤ)]), ((3 : Int), [(2 : ℤ)])])
        (some (fun _ => [(1 : ℤ)])) 3).Sorted hitLE ∧
      (search_similar_verses "love"
        (some [((5 : Int), [(0 : ℤ)]), ((3 : Int), [(2 : ℤ)])])
        (some (fun _ => [(1 : ℤ)])) 3).length
        = min 3 ([((5 : Int), [(0 : ℤ)]), ((3 : Int), [(2 : ℤ)])]).length ∧
      (([((5 : Int), [(0 : ℤ)]), ((3 : Int), [(2 : ℤ)])] :
          List (Int × Vec)).length ≤ 3 →
        (search_similar_verses "love"
          (some [((5 : Int), [(0 : ℤ)]), ((3 : Int), [(2 : ℤ)])])
          (some (fun _ => [(1 : ℤ)])) 3).Perm
          (scoredEntries [(1 : ℤ)]
            [((5 : Int), [(0 : ℤ)]), ((3 : Int), [(2 : ℤ)])]))) :=
  ⟨⟨by decide, by decide, by decide⟩,
    C1_search_ranking_law [((5 : Int), [(0 : ℤ)]), ((3 : Int), [(2 : ℤ)])]
      (fun _ => [(1 : ℤ)]) "love" 3 (by decide) (by decide) (by decide)⟩

/-- Mapping a filterMap result embeds into mapping the original list, as
long as the partial function respects the two projections. -/
theorem sublist_map_filterMap {α β γ : Type} (f : α → Option β) (g : β → γ)
    (h : α → γ) (hfg : ∀ a b, f a = some b → g b = h a) (l : List α) :
    List.Sublist ((l.filterMap f).map g) (l.map h) := by
  induction l with
  | nil => simp
  | cons a l ih =>
    rw [List.filterMap_cons, List.map_cons]
    cases hfa : f a with
    | none => exact ih.cons (h a)
    | some b =>
      rw [List.map_cons, hfg a b hfa]
      exact ih.cons₂ (h a)

/-- A filterMap keeps exactly the elements on which the partial function
fires: its length is the length of the corresponding filter. -/
theorem length_filterMap_isSome {α β : Type} (f : α → Option β)
    (l : List α) :
    (l.filterMap f).length = (l.filter (fun a => (f a).isSome)).length := by
  induction l with
  | nil => rfl
  | cons a l ih =>
    rw [List.filterMap_cons, List.filter_cons]
    cases hfa : f a with
    | none => simpa [hfa] using ih
    | some b => simpa [hfa] using ih

/-- C2: the query pipeline resolves each (identity, distance) pair from
search against the store; an identity that does not resolve is skipped
while every identity that does resolve survives — the output keeps one
entry per resolvable hit, so a dangling top hit is skipped and the
next-best entry is returned, not an empty or truncated result — each
surviving entry becomes a record with book, chapter, verse, text and the
original distance, the surviving entries keep their distance-ascending
order, and if every identity fails to resolve the pipeline returns the
empty sequence rather than an error. -/
theorem C2_resolution_skips_dangling (store : NodeStore)
    (results : List (Int × ℤ)) (hsorted : results.Sorted hitLE) :
    (∀ x ∈ get_verse_details_from_neo4j store results,
      ∃ r ∈ results, get_verse_by_id store r.1 = some x.1 ∧ x.2 = r.2) ∧
    (∀ r ∈ results, ∀ v, get_verse_by_id store r.1 = some v →
      (v, r.2) ∈ get_verse_details_from_neo4j store results) ∧
    (get_verse_details_from_neo4j store results).length
      = (results.filter
          (fun r => (get_verse_by_id store r.1).isSome)).length ∧
    List.Sublist
      ((get_verse_details_from_neo4j store results).map (fun x => x.2))
      (results.map (fun r => r.2)) ∧
    ((get_verse_details_from_neo4j store results).map (fun x => x.2)).Sorted
      (· ≤ ·) ∧
    ((∀ r ∈ results, get_verse_by_id store r.1 = none) →
      get_verse_details_from_neo4j store results = []) := by
  have hproj : ∀ (r : Int × ℤ) (x : VerseRec × ℤ),
      (get_verse_by_id store r.1).map (fun v => (v, r.2)) = some x →
      x.2 = r.2 := by
    intro r x hx
    cases hv : get_verse_by_id store r.1 with
    | none => rw [hv] at hx; exact absurd hx (by simp)
    | some v =>
      rw [hv] at hx
      cases hx
      rfl
  have hsub : List.Sublist
      ((get_verse_details_from_neo4j store results).map (fun x => x.2))
      (results.map (fun r => r.2)) :=
    sublist_map_filterMap _ _ _ hproj results
  refine ⟨?_, ?_, ?_, hsub, ?_, ?_⟩
  · intro x hx
    rw [get_verse_details_from_neo4j, List.mem_filterMap] at hx
    obtain ⟨r, hr, hfr⟩ := hx
    refine ⟨r, hr, ?_, hproj r x hfr⟩
    cases hv : get_verse_by_id store r.1 with
    | none => rw [hv] at hfr; exact absurd hfr (by simp)
    | some v =>
      rw [hv, Option.map_some'] at hfr
      injection hfr with h2
      rw [← h2]
  · intro r hr v hv
    rw [get_verse_details_from_neo4j]
    exact List.mem_filterMap.mpr ⟨r, hr, by rw [hv]; rfl⟩
  · rw [get_verse_details_from_neo4j, length_filterMap_isSome]
    have hpred : (fun r : Int × ℤ =>
        ((get_verse_by_id store r.1).map (fun v => (v, r.2))).isSome)
        = (fun r : Int × ℤ => (get_verse_by_id store r.1).isSome) := by
      funext r
      cases get_verse_by_id store r.1 <;> rfl
    rw [hpred]
  · have hd : (results.map (fun r => r.2)).Sorted (· ≤ ·) := by
      refine hsorted.map _ ?_
      intro a b hab
      have hab2 : a.2 < b.2 ∨ (a.2 = b.2 ∧ a.1 ≤ b.1) := hab
      rcases hab2 with h | ⟨h, _⟩
      · exact h.le
      · exact le_of_eq h
    exact hd.sublist hsub
  · intro hall
    rw [get_verse_details_from_neo4j, List.filterMap_eq_nil_iff]
    intro r hr
    rw [hall r hr]
    rfl

/-- Witness for C2: a two-hit result list whose better-ranked identity
dangles, so the pipeline skips it and returns the next-best entry. -/
theorem C2_resolution_skips_dangling_witness :
    ([((2 : Int), (1 : ℤ)), ((1 : Int), (2 : ℤ))] :
        List (Int × ℤ)).Sorted hitLE ∧
    ((∀ x ∈ get_verse_details_from_neo4j [((1 : Int), ⟨"Gen", 1, 1, "t"⟩)]
          [((2 : Int), (1 : ℤ)), ((1 : Int), (2 : ℤ))],
        ∃ r ∈ [((2 : Int), (1 : ℤ)), ((1 : Int), (2 : ℤ))],
          get_verse_by_id [((1 : Int), ⟨"Gen", 1, 1, "t"⟩)] r.1 = some x.1 ∧
            x.2 = r.2) ∧
      (∀ r ∈ [((2 : Int), (1 : ℤ)), ((1 : Int), (2 : ℤ))],
        ∀ v, get_verse_by_id [((1 : Int), ⟨"Gen", 1, 1, "t"⟩)] r.1 = some v →
          (v, r.2) ∈ get_verse_details_from_neo4j
            [((1 : Int), ⟨"Gen", 1, 1, "t"⟩)]
            [((2 : Int), (1 : ℤ)), ((1 : Int), (2 : ℤ))]) ∧
      (get_verse_details_from_neo4j [((1 : Int), ⟨"Gen", 1, 1, "t"⟩)]
          [((2 : Int), (1 : ℤ)), ((1 : Int), (2 : ℤ))]).length
        = (([((2 : Int), (1 : ℤ)), ((1 : Int), (2 : ℤ))] :
            List (Int × ℤ)).filter
            (fun r => (get_verse_by_id [((1 : Int), ⟨"Gen", 1, 1, "t"⟩)]
              r.1).isSome)).length ∧
      List.Sublist
        ((get_verse_details_from_neo4j [((1 : Int), ⟨"Gen", 1, 1, "t"⟩)]
            [((2 : Int), (1 : ℤ)), ((1 : Int), (2 : ℤ))]).map (fun x => x.2))
        (([((2 : Int), (1 : ℤ)), ((1 : Int), (2 : ℤ))] :
            List (Int × ℤ)).map (fun r => r.2)) ∧
      ((get_verse_details_from_neo4j [((1 : Int), ⟨"Gen", 1, 1, "t"⟩)]
          [((2 : Int), (1 : ℤ)), ((1 : Int), (2 : ℤ))]).map
            (fun x => x.2)).Sorted (· ≤ ·) ∧
      ((∀ r ∈ [((2 : Int), (1 : ℤ)), ((1 : Int), (2 : ℤ))],
          get_verse_by_id [((1 : Int), ⟨"Gen", 1, 1, "t"⟩)] r.1 = none) →
        get_verse_details_from_neo4j [((1 : Int), ⟨"Gen", 1, 1, "t"⟩)]
          [((2 : Int), (1 : ℤ)), ((1 : Int), (2 : ℤ))] = [])) :=
  ⟨by decide,
    C2_resolution_skips_dangling [((1 : Int), ⟨"Gen", 1, 1, "t"⟩)]
      [((2 : Int), (1 : ℤ)), ((1 : Int), (2 : ℤ))] (by decide)⟩

/-- C3 counterexample: the claim says every empty or whitespace-only query
is rejected with a typed InvalidQueryError.  In the code a whitespace-only
query is not rejected at all: search_similar_verses runs the search and
returns an ordinary (here nonempty) result list, and there is no error
value in its return type. -/
theorem C3_counterexample :
    (" " : String).data.all Char.isWhitespace = true ∧ (" " : String) ≠ "" ∧
    search_similar_verses " " (some [((7 : Int), [(0 : ℤ)])])
      (some (fun _ => [(0 : ℤ)])) 1 = [((7 : Int), (0 : ℤ))] := by
  refine ⟨by decide, by decide, ?_⟩
  decide

/-- C3 amended: an empty query text makes search_similar_verses return the
empty list (an ordinary empty result, not a typed failure), and a
whitespace-only (hence nonempty) query text is not rejected: with a loaded
index and model it is embedded and searched exactly like any other
query. -/
theorem C3_amended_empty_query_behavior (idx : Option (List (Int × Vec)))
    (mdl : Option (String → Vec)) (k : Nat) (entries : List (Int × Vec))
    (m : String → Vec) (q : String) (hq : q ≠ "") :
    search_similar_verses "" idx mdl k = [] ∧
    search_similar_verses q (some entries) (some m) k
      = (faissSearch entries (m q) k).filter (fun p => decide (p.1 ≠ -1)) := by
  constructor
  · rfl
  · rw [search_similar_verses, if_neg hq]

/-- Witness for the amended C3 at the whitespace-only query. -/
theorem C3_amended_empty_query_behavior_witness :
    (" " : String) ≠ "" ∧
    (search_similar_verses "" none none 5 = [] ∧
      search_similar_verses " " (some [((7 : Int), [(0 : ℤ)])])
        (some (fun _ => [(0 : ℤ)])) 5
        = (faissSearch [((7 : Int), [(0 : ℤ)])] [(0 : ℤ)] 5).filter
            (fun p => decide (p.1 ≠ -1))) :=
  ⟨by decide,
    C3_amended_empty_query_behavior none none 5 [((7 : Int), [(0 : ℤ)])]
      (fun _ => [(0 : ℤ)]) " " (by decide)⟩

/-- C4 counterexample: the claim says a query issued while the index or
model is not loaded fails with an IndexUnavailableError distinguishable
from a successful query with zero results.  In the code the not-loaded
case returns [], the very same value a successful search over an empty
index returns, so the two are indistinguishable to the caller. -/
theorem C4_counterexample :
    search_similar_verses "love" none none 5 = [] ∧
    search_similar_verses "love" (some []) (some (fun _ => [(0 : ℤ)])) 5
      = [] ∧
    search_similar_verses "love" none none 5
      = search_similar_verses "love" (some []) (some (fun _ => [(0 : ℤ)])) 5
    := by
  refine ⟨by decide, by decide, by decide⟩

/-- C4 amended: when the index or the model is not loaded,
search_similar_verses returns the empty list — the same value as a
successful search over an index with zero entries — so "search is not
ready" and "nothing matched" are not distinguishable by the caller. -/
theorem C4_amended_unavailable_returns_empty (q : String)
    (idx : Option (List (Int × Vec))) (mdl : Option (String → Vec))
    (k : Nat) (m : String → Vec) :
    search_similar_verses q none mdl k = [] ∧
    search_similar_verses q idx none k = [] ∧
    search_similar_verses q none mdl k
      = search_similar_verses q (some []) (some m) k := by
  have hempty : ∀ (qv : Vec) (j : Nat),
      (faissSearch [] qv j).filter (fun p => decide (p.1 ≠ -1)) = [] := by
    intro qv j
    rw [faissSearch]
    simp [rankedEntries, scoredEntries, List.filter_replicate]
  by_cases hq : q = ""
  · subst hq
    refine ⟨?_, ?_, ?_⟩
    · cases mdl <;> rfl
    · cases idx <;> rfl
    · cases mdl <;> rfl
  · refine ⟨?_, ?_, ?_⟩
    · cases mdl <;> simp [search_similar_verses, hq]
    · cases idx <;> simp [search_similar_verses, hq]
    · have hL : search_similar_verses q none mdl k = [] := by
        cases mdl <;> simp [search_similar_verses, hq]
      have hR : search_similar_verses q (some []) (some m) k = [] := by
        rw [search_similar_verses, if_neg hq]
        exact hempty (m q) k
      rw [hL, hR]

/-- C5 counterexample: the claim says the core clearAll destroys all data
unconditionally whenever invoked, with confirmation only at the CLI
boundary.  In the code the confirmation prompt lives inside the core
clear_all_data itself: invoked with any answer other than "yes" it deletes
nothing, leaves a nonempty store unchanged and reports False. -/
theorem C5_counterexample :
    clear_all_data "no"
        ⟨["Gen"], [("Gen", 1)], [(("Gen", 1, 1), "In the beginning")]⟩
      = (false,
          ⟨["Gen"], [("Gen", 1)], [(("Gen", 1, 1), "In the beginning")]⟩) ∧
    (⟨["Gen"], [("Gen", 1)], [(("Gen", 1, 1), "In the beginning")]⟩ :
        GraphDB).verses ≠ [] := by
  refine ⟨by decide, by decide⟩

/-- C5 amended: the destructive clear is gated at both layers, not only
at the boundary.  The core clear_all_data prompts inside itself: the
answer "yes" (case-insensitively) deletes everything and returns True,
any other answer leaves the store unchanged and returns False; the CLI
clear_database_command additionally refuses to call the core at all
without --force or its own confirmation. -/
theorem C5_amended_confirmation_in_core (ans : String) (db : GraphDB)
    (hans : ans.data.map Char.toLower ≠ ("yes" : String).data) :
    clear_all_data "yes" db = (true, emptyDB) ∧
    clear_all_data "YES" db = (true, emptyDB) ∧
    clear_all_data ans db = (false, db) ∧
    clear_database_command false false ans db = (false, db) := by
  refine ⟨?_, ?_, ?_, rfl⟩
  · rw [clear_all_data, if_pos (by decide)]
  · rw [clear_all_data, if_pos (by decide)]
  · rw [clear_all_data, if_neg hans]

/-- Witness for the amended C5 at the answer "no" on a one-verse store. -/
theorem C5_amended_confirmation_in_core_witness :
    ("no" : String).data.map Char.toLower ≠ ("yes" : String).data ∧
    (clear_all_data "yes"
        ⟨[], [], [(("Gen", 1, 1), "t")]⟩ = (true, emptyDB) ∧
      clear_all_data "YES"
        ⟨[], [], [(("Gen", 1, 1), "t")]⟩ = (true, emptyDB) ∧
      clear_all_data "no"
        ⟨[], [], [(("Gen", 1, 1), "t")]⟩
        = (false, ⟨[], [], [(("Gen", 1, 1), "t")]⟩) ∧
      clear_database_command false false "no"
        ⟨[], [], [(("Gen", 1, 1), "t")]⟩
        = (false, ⟨[], [], [(("Gen", 1, 1), "t")]⟩)) :=
  ⟨by decide,
    C5_amended_confirmation_in_core "no" ⟨[], [], [(("Gen", 1, 1), "t")]⟩
      (by decide)⟩

/-- The ingestion loop only ever adds to its two counters: running it
from counters (i, s) gives the run from (0, 0) shifted by (i, s). -/
theorem insertLoop_shift (rs : List RawRecord) (db : GraphDB) (i s : Nat) :
    insertLoop rs db i s
      = ((insertLoop rs db 0 0).1, (insertLoop rs db 0 0).2.1 + i,
          (insertLoop rs db 0 0).2.2 + s) := by
  induction rs generalizing db i s with
  | nil => simp [insertLoop]
  | cons r rs ih =>
    rw [insertLoop, insertLoop]
    by_cases hv : validRecord r
    · rw [if_pos hv, if_pos hv, ih _ (i + 1) s, ih _ 1 0]
      simp [Prod.ext_iff]
      omega
    · rw [if_neg hv, if_neg hv, ih _ i (s + 1), ih _ 0 1]
      simp [Prod.ext_iff]
      omega

/-- Every ingestion record is either inserted or skipped: the two counts
always sum to the batch length, so no record aborts the rest. -/
theorem insert_counts (records : List RawRecord) (db : GraphDB) :
    (insert_bible_data records db).2.1 + (insert_bible_data records db).2.2
      = records.length := by
  induction records generalizing db with
  | nil => rfl
  | cons r rs ih =>
    rw [insert_bible_data, insertLoop]
    by_cases hv : validRecord r
    · rw [if_pos hv, insertLoop_shift rs _ 1 0]
      have h2 := ih (mergeVerse db (r.book.getD "") (r.chapter.getD 0)
        (r.verse.getD 0) (r.text.getD ""))
      rw [insert_bible_data] at h2
      simp only [List.length_cons]
      omega
    · rw [if_neg hv, insertLoop_shift rs _ 0 1]
      have h2 := ih db
      rw [insert_bible_data] at h2
      simp only [List.length_cons]
      omega

/-- C6 counterexample: the claim says a record whose chapter number is
not a positive integer fails validation and is skipped.  A record with
chapter -1 passes the truthiness check of insert_bible_data (only None
and 0 are falsy) and is inserted: the store gains the verse, the skipped
count stays 0 and the inserted count is 1. -/
theorem C6_counterexample :
    insert_bible_data [⟨some "Gen", some (-1), some 1, some "x"⟩] emptyDB
      = (⟨["Gen"], [("Gen", -1)], [(("Gen", -1, 1), "x")]⟩, 1, 0) := by
  decide

/-- C6 amended: a record with a missing or Python-falsy field (absent
book or text, empty-string book or text, absent or zero chapter or verse
number) is skipped with a warning while the rest of the batch continues —
the inserted and skipped counts always sum to the batch length, and a
skipped record contributes nothing to the store; records with negative
chapter or verse numbers, however, are not rejected. -/
theorem C6_amended_per_record_validation (records : List RawRecord)
    (db : GraphDB) (r : RawRecord) (rs : List RawRecord)
    (hr : validRecord r = false) :
    (insert_bible_data records db).2.1 + (insert_bible_data records db).2.2
      = records.length ∧
    insert_bible_data (r :: rs) db
      = ((insert_bible_data rs db).1, (insert_bible_data rs db).2.1,
          (insert_bible_data rs db).2.2 + 1) := by
  refine ⟨insert_counts records db, ?_⟩
  rw [insert_bible_data, insertLoop, if_neg (by simp [hr]),
    insertLoop_shift rs db 0 1, insert_bible_data]
  simp

/-- Witness for the amended C6 at a record whose chapter is 0. -/
theorem C6_amended_per_record_validation_witness :
    validRecord ⟨some "Gen", some 0, some 1, some "x"⟩ = false ∧
    ((insert_bible_data [⟨some "Gen", some 0, some 1, some "x"⟩]
          emptyDB).2.1
        + (insert_bible_data [⟨some "Gen", some 0, some 1, some "x"⟩]
            emptyDB).2.2
      = ([⟨some "Gen", some 0, some 1, some "x"⟩] :
          List RawRecord).length ∧
      insert_bible_data (⟨some "Gen", some 0, some 1, some "x"⟩ :: [])
          emptyDB
        = ((insert_bible_data [] emptyDB).1,
            (insert_bible_data [] emptyDB).2.1,
            (insert_bible_data [] emptyDB).2.2 + 1)) :=
  ⟨by decide,
    C6_amended_per_record_validation
      [⟨some "Gen", some 0, some 1, some "x"⟩] emptyDB
      ⟨some "Gen", some 0, some 1, some "x"⟩ [] (by decide)⟩

/-- Number of Verse nodes carrying a given composite key. -/
def countKey (vs : List (VKey × String)) (k : VKey) : Nat :=
  (vs.filter (fun e => decide (e.1 = k))).length

/-- The text of the first Verse node carrying a given composite key. -/
def textOf (vs : List (VKey × String)) (k : VKey) : Option String :=
  (vs.find? (fun e => decide (e.1 = k))).map (fun e => e.2)

/-- Appending a fresh node with key k raises that key's count by one. -/
theorem countKey_append_single (vs : List (VKey × String)) (k : VKey)
    (t : String) : countKey (vs ++ [(k, t)]) k = countKey vs k + 1 := by
  rw [countKey, countKey, List.filter_append]
  simp

/-- When no node carries the key, its count is zero. -/
theorem countKey_eq_zero (vs : List (VKey × String)) (k : VKey)
    (h : vs.any (fun e => decide (e.1 = k)) = false) :
    countKey vs k = 0 := by
  rw [countKey, List.length_eq_zero, List.filter_eq_nil_iff]
  rw [List.any_eq_false] at h
  intro e he
  simpa using h e he

/-- When some node carries the key, its count is at least one. -/
theorem countKey_pos (vs : List (VKey × String)) (k : VKey)
    (h : vs.any (fun e => decide (e.1 = k)) = true) :
    1 ≤ countKey vs k := by
  rw [List.any_eq_true] at h
  obtain ⟨e, he, hpe⟩ := h
  have hm : e ∈ vs.filter (fun e => decide (e.1 = k)) :=
    List.mem_filter.mpr ⟨he, hpe⟩
  exact Nat.succ_le_of_lt (List.length_pos.mpr (List.ne_nil_of_mem hm))

/-- Overwriting the texts at key k changes no key, so no key's count. -/
theorem countKey_map_update (vs : List (VKey × String)) (k j : VKey)
    (t : String) :
    countKey (vs.map (fun e => if e.1 = k then (e.1, t) else e)) j
      = countKey vs j := by
  induction vs with
  | nil => rfl
  | cons e es ih =>
    rw [List.map_cons]
    by_cases he : e.1 = k
    · rw [if_pos he, countKey, countKey, List.filter_cons,
        List.filter_cons]
      simp only []
      rw [countKey, countKey] at ih
      by_cases hej : e.1 = j
      · rw [if_pos (by simpa using hej), if_pos (by simpa using hej)]
        simp [ih]
      · rw [if_neg (by simpa using hej), if_neg (by simpa using hej)]
        exact ih
    · rw [if_neg he]
      rw [countKey, countKey, List.filter_cons, List.filter_cons]
      rw [countKey, countKey] at ih
      by_cases hej : e.1 = j
      · rw [if_pos (by simpa using hej), if_pos (by simpa using hej)]
        simp [ih]
      · rw [if_neg (by simpa using hej), if_neg (by simpa using hej)]
        exact ih

/-- Overwriting the texts at key k preserves which keys occur. -/
theorem any_map_update (vs : List (VKey × String)) (k j : VKey)
    (t : String) :
    (vs.map (fun e => if e.1 = k then (e.1, t) else e)).any
        (fun e => decide (e.1 = j))
      = vs.any (fun e => decide (e.1 = j)) := by
  induction vs with
  | nil => rfl
  | cons e es ih =>
    rw [List.map_cons, List.any_cons, List.any_cons, ih]
    by_cases he : e.1 = k
    · rw [if_pos he]
    · rw [if_neg he]

/-- After overwriting the texts at a key that occurs, the first node at
that key carries the new text. -/
theorem textOf_map_update (vs : List (VKey × String)) (k : VKey)
    (t : String) (h : vs.any (fun e => decide (e.1 = k)) = true) :
    textOf (vs.map (fun e => if e.1 = k then (e.1, t) else e)) k
      = some t := by
  induction vs with
  | nil => simp at h
  | cons e es ih =>
    rw [List.map_cons]
    by_cases he : e.1 = k
    · rw [if_pos he, textOf, List.find?_cons_of_pos _ (by simpa using he)]
      rfl
    · rw [if_neg he, textOf, List.find?_cons_of_neg _ (by simpa using he)]
      rw [List.any_cons] at h
      simp only [he, decide_False, Bool.false_or] at h
      exact ih h

/-- After the first upsert at a key, some node carries the key. -/
theorem any_upsertVerse (vs : List (VKey × String)) (k : VKey)
    (t : String) :
    (upsertVerse vs k t).any (fun e => decide (e.1 = k)) = true := by
  rw [upsertVerse]
  by_cases h : vs.any (fun e => decide (e.1 = k)) = true
  · rw [if_pos h, any_map_update, h]
  · rw [if_neg h, List.any_append]
    simp

/-- From an at-most-one-node store state, one upsert at a key leaves
exactly one node with that key. -/
theorem countKey_upsertVerse (vs : List (VKey × String)) (k : VKey)
    (t : String) (h : countKey vs k ≤ 1) :
    countKey (upsertVerse vs k t) k = 1 := by
  rw [upsertVerse]
  by_cases hany : vs.any (fun e => decide (e.1 = k)) = true
  · rw [if_pos hany, countKey_map_update]
    exact le_antisymm h (countKey_pos vs k hany)
  · rw [if_neg hany, countKey_append_single,
      countKey_eq_zero vs k (eq_false_of_ne_true hany)]

/-- C7: upserting the same composite key twice with different texts
leaves exactly one Verse node for that key, its text is the later text,
and the verse count after the second upsert equals the count after the
first (idempotent upsert, last write wins). -/
theorem C7_idempotent_upsert (db : GraphDB) (b : String) (c v : Int)
    (t1 t2 : String) (h : countKey db.verses (b, c, v) ≤ 1) :
    countKey (mergeVerse (mergeVerse db b c v t1) b c v t2).verses
        (b, c, v) = 1 ∧
    textOf (mergeVerse (mergeVerse db b c v t1) b c v t2).verses
        (b, c, v) = some t2 ∧
    (mergeVerse (mergeVerse db b c v t1) b c v t2).verses.length
      = (mergeVerse db b c v t1).verses.length := by
  have hany1 : (mergeVerse db b c v t1).verses.any
      (fun e => decide (e.1 = (b, c, v))) = true := by
    rw [mergeVerse]
    exact any_upsertVerse db.verses (b, c, v) t1
  have hcount1 : countKey (mergeVerse db b c v t1).verses (b, c, v) = 1 := by
    rw [mergeVerse]
    exact countKey_upsertVerse db.verses (b, c, v) t1 h
  have hverses2 : (mergeVerse (mergeVerse db b c v t1) b c v t2).verses
      = (mergeVerse db b c v t1).verses.map
          (fun e => if e.1 = (b, c, v) then (e.1, t2) else e) := by
    show upsertVerse (mergeVerse db b c v t1).verses (b, c, v) t2 = _
    rw [upsertVerse, if_pos hany1]
  refine ⟨?_, ?_, ?_⟩
  · rw [hverses2, countKey_map_update]
    exact hcount1
  · rw [hverses2]
    exact textOf_map_update _ _ _ hany1
  · rw [hverses2, List.length_map]

/-- Witness for C7: the same key upserted twice into the empty store. -/
theorem C7_idempotent_upsert_witness :
    countKey emptyDB.verses ("Gen", 1, 1) ≤ 1 ∧
    (countKey (mergeVerse (mergeVerse emptyDB "Gen" 1 1 "first")
          "Gen" 1 1 "second").verses ("Gen", 1, 1) = 1 ∧
      textOf (mergeVerse (mergeVerse emptyDB "Gen" 1 1 "first")
          "Gen" 1 1 "second").verses ("Gen", 1, 1) = some "second" ∧
      (mergeVerse (mergeVerse emptyDB "Gen" 1 1 "first")
          "Gen" 1 1 "second").verses.length
        = (mergeVerse emptyDB "Gen" 1 1 "first").verses.length) :=
  ⟨by decide,
    C7_idempotent_upsert emptyDB "Gen" 1 1 "first" "second" (by decide)⟩

/-- C8: invoking the index build on a store with zero verses fails (the
function reports failure before any other step runs) and the previously
persisted index file — present or absent — is left exactly as it was:
nothing is produced or written. -/
theorem C8_empty_corpus_no_index (m : String → Vec)
    (embedFail buildFail saveFail : Bool)
    (failedWrite fs : Option IndexArtifact) :
    build_and_save_index [] m embedFail buildFail saveFail failedWrite fs
      = (false, fs) := rfl

/-- C9 counterexample: the claim says a build failing at any step — the
saving step included — leaves the previously persisted index file
unchanged.  The code calls faiss.write_index in place on the live index
path with no temporary file or rename, so a write that fails after
opening the file truncates it: on a one-verse corpus with a previously
persisted artifact, a save-step failure whose aborted write left the file
truncated yields a file state that is not the previous artifact. -/
theorem C9_counterexample :
    build_and_save_index [((1 : Int), "In the beginning")]
        (fun _ => [(0 : ℤ)]) false false true none
        (some [((9 : Int), [(3 : ℤ)])])
      = (false, none) ∧
    (false, (none : Option IndexArtifact))
      ≠ (false, some [((9 : Int), [(3 : ℤ)])]) := by
  refine ⟨by decide, by decide⟩

/-- C9 amended: a build that fails while fetching verses (empty corpus),
embedding, or constructing the index aborts before any file operation,
reports failure and leaves the previously persisted index file unchanged;
a failure of the saving step also aborts the build with a failure result,
but since the code writes in place to the live index path, the file is
then whatever the aborted external write left behind — the previous index
is not guaranteed to survive a failed save. -/
theorem C9_amended_pre_save_untouched (verses : List (Int × String))
    (m : String → Vec) (embedFail buildFail saveFail : Bool)
    (failedWrite fs : Option IndexArtifact)
    (h : verses = [] ∨ embedFail = true ∨ buildFail = true) :
    build_and_save_index verses m embedFail buildFail saveFail failedWrite
        fs
      = (false, fs) ∧
    (build_and_save_index verses m embedFail buildFail true failedWrite
        fs).1 = false := by
  constructor
  · rcases h with h | h | h <;>
      simp [build_and_save_index, h, ite_self]
  · by_cases h1 : verses = [] <;>
      cases embedFail <;> cases buildFail <;>
        simp [build_and_save_index, h1]

/-- Witness for the amended C9 at a failing embedding step on a one-verse
corpus, with a previously persisted artifact that survives. -/
theorem C9_amended_pre_save_untouched_witness :
    (([((1 : Int), "In the beginning")] : List (Int × String)) = [] ∨
      true = true ∨ false = true) ∧
    (build_and_save_index [((1 : Int), "In the beginning")]
        (fun _ => [(0 : ℤ)]) true false false none
        (some [((9 : Int), [(3 : ℤ)])])
      = (false, some [((9 : Int), [(3 : ℤ)])]) ∧
    (build_and_save_index [((1 : Int), "In the beginning")]
        (fun _ => [(0 : ℤ)]) true false true none
        (some [((9 : Int), [(3 : ℤ)])])).1 = false) :=
  ⟨by decide,
    C9_amended_pre_save_untouched [((1 : Int), "In the beginning")]
      (fun _ => [(0 : ℤ)]) true false false none
      (some [((9 : Int), [(3 : ℤ)])]) (by decide)⟩

/-- C10: when the database query behind listAllVersesForIndexing raises,
run_query swallows the exception and get_all_verses_for_indexing returns
the empty list, so the subsequent build takes the empty-corpus branch and
returns exactly the same failure result as a build over a genuinely empty
store: the caller cannot distinguish a database failure from an empty
corpus. -/
theorem C10_db_failure_looks_empty (verseRows : List (Int × String))
    (m : String → Vec) (embedFail buildFail saveFail : Bool)
    (failedWrite fs : Option IndexArtifact) :
    get_all_verses_for_indexing true verseRows = [] ∧
    build_and_save_index (get_all_verses_for_indexing true verseRows) m
        embedFail buildFail saveFail failedWrite fs
      = build_and_save_index (get_all_verses_for_indexing false []) m
          embedFail buildFail saveFail failedWrite fs ∧
    build_and_save_index (get_all_verses_for_indexing true verseRows) m
        embedFail buildFail saveFail failedWrite fs
      = (false, fs) := by
  exact ⟨rfl, rfl, rfl⟩

end BibleSearch
